import Mathlib

/-!
Shallow embedding of the EDA pipeline in src/eda.py: load transactions and
exchange rates, left-join on date, per-row currency conversion to USD with a
None-on-failure policy, dropna filtering, summary statistics, grouped
aggregates, and the plain-text report.

Modelling conventions:
- monetary amounts and exchange rates are exact rationals;
- a pandas cell is a Value: a number, a string, a boolean, a datetime-like
  object, or null (both NaN and an absent key read through Series.get with
  default None behave as null, since pd.notnull is false on each);
- a timestamp is the number of seconds since the epoch (timezone-naive), the
  calendar date is its day number and the hour-of-day its wall-clock hour;
- operations that would raise in Python are modelled with Except, where
  Except.error stands for the fatal, uncaught exception.
-/

namespace EDA

instance {ε α : Type} [DecidableEq ε] [DecidableEq α] : DecidableEq (Except ε α) :=
  fun a b =>
    match a, b with
    | Except.ok x, Except.ok y =>
      if h : x = y then isTrue (by rw [h]) else isFalse (by intro hh; cases hh; exact h rfl)
    | Except.error x, Except.error y =>
      if h : x = y then isTrue (by rw [h]) else isFalse (by intro hh; cases hh; exact h rfl)
    | Except.ok _, Except.error _ => isFalse (by intro hh; cases hh)
    | Except.error _, Except.ok _ => isFalse (by intro hh; cases hh)

/-- Possible contents of one cell of a dataframe row, as seen by the
row-wise Python code. null stands both for a NaN cell and for a key that is
absent from the row (Series.get returns the default None there, and
pd.notnull is false on None and on NaN alike). -/
inductive Value where
  | num (q : ℚ)
  | str (s : String)
  | bool (b : Bool)
  | ts (n : Nat)
  | null
  deriving DecidableEq

/-- Model of pd.notnull on one cell. -/
def pdNotNull : Value → Bool
  | Value.null => false
  | _ => true

/-- Model of the Python comparison (cell != 0): numbers compare numerically,
booleans coerce to integers (False == 0 in Python), and any other non-null
object is unequal to 0. -/
def valueNeZero : Value → Bool
  | Value.num q => if q = 0 then false else true
  | Value.bool b => b
  | _ => true

/-- Model of the Python division (amount / cell): defined for a nonzero
number and for True (which coerces to 1); any other divisor raises
(TypeError, or ZeroDivisionError on zero), modelled as none. -/
def divByValue (a : ℚ) : Value → Option ℚ
  | Value.num q => if q = 0 then none else some (a / q)
  | Value.bool b => if b then some a else none
  | _ => none

/-- One row of transaction_fraud_data.parquet, after the preprocessing that
parses the timestamp; the derived date column is exposed through
Transaction.date below. -/
structure Transaction where
  timestamp : Nat
  currency : String
  amount : ℚ
  customer_id : String
  vendor : String
  vendor_category : String
  country : String
  is_fraud : Bool
  deriving DecidableEq

/-- Derived calendar date (day number) of the transaction, as in
transactions["timestamp"].dt.date. -/
def Transaction.date (t : Transaction) : Nat := t.timestamp / 86400

/-- Derived hour of day, as in merged["timestamp"].dt.hour. -/
def Transaction.hour (t : Transaction) : Nat := t.timestamp % 86400 / 3600

/-- Column names contributed by the transactions table to the merged row
(original column order, with the derived date column appended). -/
def txColNames : List String :=
  ["timestamp", "currency", "amount", "customer_id", "vendor",
   "vendor_category", "country", "is_fraud", "date"]

/-- Reading one transaction-side column of the merged row by name. -/
def txGet (t : Transaction) (key : String) : Option Value :=
  if key = "timestamp" then some (Value.ts t.timestamp)
  else if key = "currency" then some (Value.str t.currency)
  else if key = "amount" then some (Value.num t.amount)
  else if key = "customer_id" then some (Value.str t.customer_id)
  else if key = "vendor" then some (Value.str t.vendor)
  else if key = "vendor_category" then some (Value.str t.vendor_category)
  else if key = "country" then some (Value.str t.country)
  else if key = "is_fraud" then some (Value.bool t.is_fraud)
  else if key = "date" then some (Value.ts t.date)
  else none

/-- One row of historical_currency_exchange.parquet: a date plus one column
per currency code; none in a cell models a NaN rate. -/
structure RateRow where
  date : Nat
  rates : List (String × Option ℚ)
  deriving DecidableEq

/-- Reading the rate-side column named key of a rate row: a present numeric
cell gives that number; an absent column or a NaN cell reads as null. -/
def lookupRate (rr : RateRow) (key : String) : Value :=
  match List.lookup key rr.rates with
  | some (some q) => Value.num q
  | some none => Value.null
  | none => Value.null

/-- One row of the merged table: the transaction columns plus, when the
left join found rate rows for the date, the matched rate row's columns.
rateRow = none is the left-join miss: every rate-side column is null. -/
structure MergedRow where
  tx : Transaction
  rateRow : Option RateRow
  deriving DecidableEq

/-- Model of row.get(key, None) on a merged row: pandas places the left
(transaction) columns before the rate columns, so a key naming a
transaction-side column reads that column; otherwise the rate columns are
consulted, and a miss reads as null (Series.get default None). -/
def MergedRow.get (m : MergedRow) (key : String) : Value :=
  match txGet m.tx key with
  | some v => v
  | none =>
    match m.rateRow with
    | none => Value.null
    | some rr => lookupRate rr key

/-- Left-join of one transaction with the exchange-rate table on date: one
merged row per rate row sharing the date, or a single null-extended row when
no rate row matches. -/
def mergeTx (rates : List RateRow) (t : Transaction) : List MergedRow :=
  match rates.filter (fun r => r.date == t.date) with
  | [] => [{ tx := t, rateRow := none }]
  | ms => ms.map (fun r => { tx := t, rateRow := some r })

/-- The merged table of transactions.merge(exchange_rates, on="date",
how="left"): rows in transaction order, each transaction expanded by its
matching rate rows. -/
def mergeTables (txs : List Transaction) (rates : List RateRow) : List MergedRow :=
  txs.flatMap (mergeTx rates)

/-- The row-wise conversion of src/eda.py: rate = row.get(row["currency"],
None); if pd.notnull(rate) and rate != 0 return row["amount"] / rate, else
return None. Except.error models a Python exception escaping the division
(for instance when the looked-up cell is a string). -/
def convert_to_usd (row : MergedRow) : Except Unit (Option ℚ) :=
  let rate := row.get row.tx.currency
  if pdNotNull rate && valueNeZero rate then
    match divByValue row.tx.amount rate with
    | some q => Except.ok (some q)
    | none => Except.error ()
  else
    Except.ok none

/-- merged.apply(convert_to_usd, axis=1): the amount_usd column, with a
row-level exception aborting the whole script. -/
def applyConvert : List MergedRow → Except Unit (List (MergedRow × Option ℚ))
  | [] => Except.ok []
  | m :: ms =>
    match convert_to_usd m with
    | Except.error e => Except.error e
    | Except.ok v =>
      match applyConvert ms with
      | Except.error e => Except.error e
      | Except.ok rest => Except.ok ((m, v) :: rest)

/-- merged.dropna(subset=["amount_usd"]): keep exactly the rows whose
amount_usd is present. -/
def dropnaUsd (rows : List (MergedRow × Option ℚ)) : List (MergedRow × ℚ) :=
  rows.filterMap (fun p => p.2.map (fun q => (p.1, q)))

/-- The filtered merged table: join, convert, dropna. -/
def filteredTable (txs : List Transaction) (rates : List RateRow) :
    Except Unit (List (MergedRow × ℚ)) :=
  (applyConvert (mergeTables txs rates)).map dropnaUsd

/-- A numpy floating-point scalar as produced by the statistics section:
either a finite value, or one of the non-finite results that numpy division
yields with a warning instead of an exception. -/
inductive NpFloat where
  | fin (q : ℚ)
  | nan
  | inf
  | ninf
  deriving DecidableEq

/-- Numpy true division of two integer scalars (fraud_count is a numpy
int64, so division by a zero row count warns and yields nan or inf, it does
not raise). -/
def npDiv (a b : ℤ) : NpFloat :=
  if b = 0 then
    if a = 0 then NpFloat.nan else if 0 < a then NpFloat.inf else NpFloat.ninf
  else NpFloat.fin ((a : ℚ) / (b : ℚ))

/-- Multiplication of a numpy float by a positive finite constant (used only
with 100); non-finite values keep their kind. -/
def NpFloat.mulPos : NpFloat → ℚ → NpFloat
  | NpFloat.fin q, c => NpFloat.fin (q * c)
  | NpFloat.nan, _ => NpFloat.nan
  | NpFloat.inf, _ => NpFloat.inf
  | NpFloat.ninf, _ => NpFloat.ninf

/-- Count of fraud-flagged rows of the filtered table, the value of
merged["is_fraud"].sum() (a sum of booleans counts the true ones). -/
def fraudCount (rows : List (MergedRow × ℚ)) : Nat :=
  (rows.filter (fun p => p.1.tx.is_fraud)).length

/-- Series.nunique: the number of distinct values of a column. -/
def nunique (xs : List String) : Nat := xs.dedup.length

/-- The scalar summary statistics of section 3 of src/eda.py. -/
structure Stats where
  total_transactions : Nat
  fraud_count : Nat
  fraud_percent : NpFloat
  unique_customers : Nat
  unique_vendors : Nat
  deriving DecidableEq

/-- Section 3 of src/eda.py over the filtered merged table. -/
def computeStats (rows : List (MergedRow × ℚ)) : Stats :=
  { total_transactions := rows.length
    fraud_count := fraudCount rows
    fraud_percent := (npDiv (fraudCount rows) rows.length).mulPos 100
    unique_customers := nunique (rows.map (fun p => p.1.tx.customer_id))
    unique_vendors := nunique (rows.map (fun p => p.1.tx.vendor)) }

/-- Ordering used by Series.value_counts: larger count first, and on equal
counts the key whose first occurrence in the column comes earlier first
(pandas builds the keys in first-occurrence order and sorts them stably by
descending count). The entries carry (key, count, first-occurrence index). -/
def vcLE (a b : String × Nat × Nat) : Prop :=
  b.2.1 < a.2.1 ∨ (a.2.1 = b.2.1 ∧ a.2.2 ≤ b.2.2)

instance : DecidableRel vcLE := fun a b => by
  unfold vcLE; exact inferInstance

instance : IsTotal (String × Nat × Nat) vcLE :=
  ⟨by intro a b; unfold vcLE; omega⟩

instance : IsTrans (String × Nat × Nat) vcLE :=
  ⟨by intro a b c hab hbc; unfold vcLE at *; omega⟩

/-- Series.value_counts on a string column: one entry per distinct value,
tagged with its count and the index of its first occurrence, sorted by
descending count with ties in first-occurrence order. -/
def value_counts (xs : List String) : List (String × Nat × Nat) :=
  List.insertionSort vcLE (xs.dedup.map (fun k => (k, xs.count k, xs.indexOf k)))

/-- merged["country"].value_counts().head(10): the top-10 countries of the
filtered table with their transaction counts. -/
def top_countries (rows : List (MergedRow × ℚ)) : List (String × Nat) :=
  ((value_counts (rows.map (fun p => p.1.tx.country))).take 10).map
    (fun e => (e.1, e.2.1))

/-- The hour-of-day grouping behind the countplot of section 5.4: the hour
column is derived from the timestamp of the filtered table and grouped with
one entry per distinct hour carrying its row count. -/
def hourCounts (rows : List (MergedRow × ℚ)) : List (Nat × Nat) :=
  ((rows.map (fun p => p.1.tx.hour)).dedup).map
    (fun h => (h, (rows.map (fun p => p.1.tx.hour)).count h))

/-- Rounding to the nearest integer with ties to the even neighbour, the
rule Python string formatting applies. -/
def roundHalfEven (q : ℚ) : ℤ :=
  if q - ⌊q⌋ = 1 / 2 then (if 2 ∣ ⌊q⌋ then ⌊q⌋ else ⌊q⌋ + 1) else round q

/-- Rendering of the integer n as the decimal n / 100 with exactly two
digits after the point. -/
def fmt2OfInt (n : ℤ) : String :=
  let m := n.natAbs
  (if n < 0 then "-" else "") ++ toString (m / 100) ++ "." ++
    (if m % 100 < 10 then "0" ++ toString (m % 100) else toString (m % 100))

/-- The value of q rendered to two decimal places (the rational model of
the Python format specifier .2f). -/
def decimal2String (q : ℚ) : String := fmt2OfInt (roundHalfEven (q * 100))

/-- Python formatting of a numpy float with the .2f specifier: two decimal
places for a finite value, the literal words for non-finite ones. -/
def formatFixed2 : NpFloat → String
  | NpFloat.fin q => decimal2String q
  | NpFloat.nan => "nan"
  | NpFloat.inf => "inf"
  | NpFloat.ninf => "-inf"

/-- The five hand-authored product hypotheses of section 6 of src/eda.py. -/
def product_hypotheses : List String :=
  ["Увеличить лимиты проверок для транзакций в ночное время, когда уровень мошенничества выше.",
   "Ввести дополнительные проверки для категорий с высокой долей мошенничества (например, путешествия, развлечения).",
   "Предлагать клиентам уведомления о крупных транзакциях в нестандартное время.",
   "Внедрить гео-проверку для операций за пределами страны клиента.",
   "Использовать машинное обучение для оценки риска в реальном времени."]

/-- The five hand-authored technical hypotheses of section 6 of src/eda.py. -/
def technical_hypotheses : List String :=
  ["Добавить больше временных признаков (день недели, праздничный день, сезон).",
   "Интегрировать поведенческие биометрические данные для аутентификации.",
   "Ввести кластеризацию клиентов по типичному паттерну трат.",
   "Обогащать данные о вендорах из внешних источников.",
   "Разрабатывать ансамблевые модели для улучшения точности выявления мошенничества."]

/-- The lines of report.txt exactly as section 7 of src/eda.py writes them
from the computed statistics and the two fixed hypothesis lists. -/
def mkReportLines (s : Stats) : List String :=
  ["=== Общая статистика ===",
   "Всего транзакций: " ++ toString s.total_transactions,
   "Количество мошеннических: " ++ toString s.fraud_count ++ " (" ++
     formatFixed2 s.fraud_percent ++ "%)",
   "Уникальных клиентов: " ++ toString s.unique_customers,
   "Уникальных вендоров: " ++ toString s.unique_vendors,
   "",
   "=== Продуктовые гипотезы ==="] ++
  product_hypotheses.map (fun h => "- " ++ h) ++
  ["", "=== Технические гипотезы ==="] ++
  technical_hypotheses.map (fun h => "- " ++ h)

/-- The report lines produced by a run of the pipeline on the two input
tables (Except.error is the script dying on a row-level exception before
the report is written). -/
def reportLines (txs : List Transaction) (rates : List RateRow) :
    Except Unit (List String) :=
  (filteredTable txs rates).map (fun rows => mkReportLines (computeStats rows))

/-- The byte content of report.txt for one invocation of the script. The
run argument models the invocation context (which run it is, the wall clock
at start); the script reads no clock and no source of randomness while
producing the report, so the parameter is never consulted. -/
def reportText (_run : Nat) (txs : List Transaction) (rates : List RateRow) :
    Except Unit String :=
  (reportLines txs rates).map (fun ls => String.intercalate "\n" ls ++ "\n")

/-- Spec-side matched exchange rate of a merged row: the value of the
rate-table column named by the transaction's currency code on the matched
rate row, and null when there is no rate row for the date or no such rate
column. This follows the specification's wording (look up the rate whose
column name equals the currency code among the rate columns attached by the
date join); convert_to_usd instead searches the whole merged row. -/
def rateOnlyLookup (m : MergedRow) : Value :=
  match m.rateRow with
  | none => Value.null
  | some rr => lookupRate rr m.tx.currency

/-! Helper lemmas about the embedded pipeline. -/

lemma txGet_eq_none_of_not_mem (t : Transaction) (key : String)
    (h : key ∉ txColNames) : txGet t key = none := by
  simp only [txColNames, List.mem_cons, List.not_mem_nil, or_false, not_or] at h
  obtain ⟨h1, h2, h3, h4, h5, h6, h7, h8, h9⟩ := h
  simp [txGet, h1, h2, h3, h4, h5, h6, h7, h8, h9]

lemma get_of_not_txCol (m : MergedRow) (h : m.tx.currency ∉ txColNames) :
    m.get m.tx.currency = rateOnlyLookup m := by
  unfold MergedRow.get rateOnlyLookup
  rw [txGet_eq_none_of_not_mem m.tx m.tx.currency h]

lemma convert_to_usd_ok_some (m : MergedRow) (q : ℚ)
    (h : convert_to_usd m = Except.ok (some q)) :
    pdNotNull (m.get m.tx.currency) = true ∧
      valueNeZero (m.get m.tx.currency) = true ∧
      divByValue m.tx.amount (m.get m.tx.currency) = some q := by
  unfold convert_to_usd at h
  by_cases hc : (pdNotNull (m.get m.tx.currency) && valueNeZero (m.get m.tx.currency)) = true
  · rw [if_pos hc] at h
    have hc' : pdNotNull (m.get m.tx.currency) = true ∧
        valueNeZero (m.get m.tx.currency) = true := by simpa using hc
    refine ⟨hc'.1, hc'.2, ?_⟩
    cases hd : divByValue m.tx.amount (m.get m.tx.currency) with
    | none => rw [hd] at h; cases h
    | some q' => rw [hd] at h; cases h; rfl
  · rw [if_neg hc] at h
    cases h

lemma convert_to_usd_of_null_or_zero (m : MergedRow)
    (h : m.get m.tx.currency = Value.null ∨ m.get m.tx.currency = Value.num 0) :
    convert_to_usd m = Except.ok none := by
  unfold convert_to_usd
  rcases h with h | h <;> rw [h] <;> simp [pdNotNull, valueNeZero]

lemma applyConvert_ok_mem {ms : List MergedRow} {l : List (MergedRow × Option ℚ)}
    (h : applyConvert ms = Except.ok l) {p : MergedRow × Option ℚ} (hp : p ∈ l) :
    p.1 ∈ ms ∧ convert_to_usd p.1 = Except.ok p.2 := by
  induction ms generalizing l with
  | nil =>
    unfold applyConvert at h
    cases h
    cases hp
  | cons m rest ih =>
    unfold applyConvert at h
    cases hc : convert_to_usd m with
    | error e => rw [hc] at h; cases h
    | ok v =>
      rw [hc] at h
      cases hr : applyConvert rest with
      | error e => rw [hr] at h; cases h
      | ok l' =>
        rw [hr] at h
        cases h
        rcases List.mem_cons.mp hp with hp | hp
        · subst hp
          exact ⟨List.mem_cons_self m rest, hc⟩
        · rcases ih hr hp with ⟨h1, h2⟩
          exact ⟨List.mem_cons_of_mem m h1, h2⟩

lemma applyConvert_of_forall {ms : List MergedRow} {f : MergedRow → Option ℚ}
    (h : ∀ m ∈ ms, convert_to_usd m = Except.ok (f m)) :
    applyConvert ms = Except.ok (ms.map (fun m => (m, f m))) := by
  induction ms with
  | nil => rfl
  | cons m rest ih =>
    unfold applyConvert
    rw [h m (List.mem_cons_self m rest),
      ih (fun m' hm' => h m' (List.mem_cons_of_mem m hm'))]
    rfl

lemma dropnaUsd_mem {l : List (MergedRow × Option ℚ)} {p : MergedRow × ℚ}
    (hp : p ∈ dropnaUsd l) : (p.1, some p.2) ∈ l := by
  unfold dropnaUsd at hp
  rcases List.mem_filterMap.mp hp with ⟨a, ha, hfa⟩
  rcases a with ⟨m, v⟩
  cases v with
  | none => cases hfa
  | some q =>
    simp only [Option.map_some'] at hfa
    cases hfa
    exact ha

lemma dropnaUsd_map_none (ms : List MergedRow) :
    dropnaUsd (ms.map (fun m => (m, (none : Option ℚ)))) = [] := by
  induction ms with
  | nil => rfl
  | cons m rest ih => simp [dropnaUsd, List.filterMap]

lemma dropnaUsd_map_some (ms : List MergedRow) (g : MergedRow → ℚ) :
    dropnaUsd (ms.map (fun m => (m, some (g m)))) = ms.map (fun m => (m, g m)) := by
  induction ms with
  | nil => rfl
  | cons m rest ih => simpa [dropnaUsd, List.filterMap] using ih

lemma mergeTx_mem {rates : List RateRow} {t : Transaction} {m : MergedRow}
    (hm : m ∈ mergeTx rates t) :
    m.tx = t ∧ (m.rateRow = none ∨
      ∃ rr, m.rateRow = some rr ∧ rr ∈ rates ∧ rr.date = t.date) := by
  unfold mergeTx at hm
  cases hf : rates.filter (fun r => r.date == t.date) with
  | nil =>
    rw [hf] at hm
    rcases List.mem_singleton.mp hm with rfl
    exact ⟨rfl, Or.inl rfl⟩
  | cons r rs =>
    rw [hf] at hm
    rcases List.mem_map.mp hm with ⟨rr, hrr, rfl⟩
    have hrr' : rr ∈ rates.filter (fun r => r.date == t.date) := by
      rw [hf]; exact hrr
    rcases List.mem_filter.mp hrr' with ⟨hmem, hdate⟩
    exact ⟨rfl, Or.inr ⟨rr, rfl, hmem, by simpa using hdate⟩⟩

lemma mergeTables_singleton (t : Transaction) (rates : List RateRow) :
    mergeTables [t] rates = mergeTx rates t := by
  simp [mergeTables]

lemma filteredTable_ok_mem {txs : List Transaction} {rates : List RateRow}
    {rows : List (MergedRow × ℚ)} (h : filteredTable txs rates = Except.ok rows)
    {p : MergedRow × ℚ} (hp : p ∈ rows) :
    p.1 ∈ mergeTables txs rates ∧ convert_to_usd p.1 = Except.ok (some p.2) := by
  unfold filteredTable at h
  cases ha : applyConvert (mergeTables txs rates) with
  | error e => rw [ha] at h; cases h
  | ok l =>
    rw [ha] at h
    simp only [Except.map] at h
    cases h
    have := dropnaUsd_mem hp
    exact applyConvert_ok_mem ha this

/-- Sum of an indicator of one element over a duplicate-free list that
contains it. -/
lemma sum_map_indicator_one {α : Type} [DecidableEq α] (x : α) :
    ∀ l : List α, x ∈ l → l.Nodup →
      (l.map (fun y => if y = x then 1 else 0)).sum = 1 := by
  intro l
  induction l with
  | nil => intro hx; cases hx
  | cons z zs ihz =>
    intro hx hnd
    rcases List.mem_cons.mp hx with rfl | hz
    · have hzx : x ∉ zs := (List.nodup_cons.mp hnd).1
      have hz0 : (zs.map (fun y => if y = x then 1 else 0)).sum = 0 := by
        rw [List.sum_eq_zero_iff]
        intro n hn
        rcases List.mem_map.mp hn with ⟨y, hy, rfl⟩
        have hyx : y ≠ x := fun hyz => hzx (hyz ▸ hy)
        simp [hyx]
      simp [hz0]
    · have hzz : z ≠ x := by
        intro hzz
        exact (List.nodup_cons.mp hnd).1 (hzz ▸ hz)
      have := ihz hz (List.nodup_cons.mp hnd).2
      simp [hzz, this]

/-- Sum of the per-value counts over the distinct values of a list gives
its length. -/
lemma sum_dedup_count {α : Type} [DecidableEq α] (l : List α) :
    ((l.dedup.map (fun x => l.count x)).sum) = l.length := by
  induction l with
  | nil => rfl
  | cons x t ih =>
    by_cases hx : x ∈ t
    · rw [List.dedup_cons_of_mem hx]
      have hmap : t.dedup.map (fun y => (x :: t).count y) =
          t.dedup.map (fun y => t.count y + (if y = x then 1 else 0)) := by
        refine List.map_congr_left (fun y _ => ?_)
        by_cases hyx : y = x
        · subst hyx; simp [List.count_cons_self]
        · simp [List.count_cons, hyx]
      rw [hmap, List.sum_map_add]
      rw [sum_map_indicator_one x t.dedup (List.mem_dedup.mpr hx) (List.nodup_dedup t), ih]
      simp [List.length_cons]
    · rw [List.dedup_cons_of_not_mem hx]
      simp only [List.map_cons, List.sum_cons, List.count_cons_self]
      have hzero : t.count x = 0 := List.count_eq_zero.mpr hx
      have hmap : t.dedup.map (fun y => (x :: t).count y) =
          t.dedup.map (fun y => t.count y) := by
        refine List.map_congr_left (fun y hy => ?_)
        have hyx : y ≠ x := by
          intro hyx
          exact hx (hyx ▸ List.mem_dedup.mp hy)
        simp [List.count_cons, hyx]
      rw [hzero, hmap, ih]
      simp [List.length_cons]
      omega

/-! Concrete inputs used by the witnesses and counterexamples. -/

/-- A transaction in a real currency with a matching positive rate. -/
def txEUR : Transaction :=
  { timestamp := 3600, currency := "EUR", amount := 100, customer_id := "c1",
    vendor := "v1", vendor_category := "travel", country := "US", is_fraud := true }

/-- A rate row for day 0 quoting only EUR. -/
def rrEUR : RateRow := { date := 0, rates := [("EUR", some (9 / 10))] }

/-- The merged row of txEUR with rrEUR. -/
def mEUR : MergedRow := { tx := txEUR, rateRow := some rrEUR }

/-- A transaction whose currency code collides with the amount column of the
transaction table; no rate column of rrEUR is named amount. -/
def txAmt : Transaction :=
  { timestamp := 3600, currency := "amount", amount := 5, customer_id := "c1",
    vendor := "v1", vendor_category := "travel", country := "US", is_fraud := false }

/-- The merged row of txAmt with rrEUR. -/
def mAmt : MergedRow := { tx := txAmt, rateRow := some rrEUR }

/-- A transaction in JPY, used with a zero quoted rate. -/
def txJPY : Transaction :=
  { timestamp := 7200, currency := "JPY", amount := 30, customer_id := "c2",
    vendor := "v2", vendor_category := "food", country := "JP", is_fraud := false }

/-- A rate row for day 0 quoting a zero JPY rate. -/
def rrJPY0 : RateRow := { date := 0, rates := [("JPY", some 0)] }

/-- A transaction on day 1, for which no rate row exists in the witnesses. -/
def txMiss : Transaction :=
  { timestamp := 90000, currency := "EUR", amount := 10, customer_id := "c3",
    vendor := "v3", vendor_category := "retail", country := "DE", is_fraud := false }

/-- A one-row filtered table used by witnesses of the aggregate claims. -/
def rowsW : List (MergedRow × ℚ) := [(mEUR, 1000 / 9)]

/-! The claims. -/

/-- C6: for every filtered table, the hour-of-day grouping derived from the
timestamp contains only values in 0..23 and the group counts sum to the
total filtered row count. -/
theorem C6_hour_grouping (rows : List (MergedRow × ℚ)) :
    (∀ p ∈ hourCounts rows, p.1 < 24) ∧
      ((hourCounts rows).map Prod.snd).sum = rows.length := by
  constructor
  · intro p hp
    rcases List.mem_map.mp hp with ⟨h, hh, rfl⟩
    have hmem : h ∈ rows.map (fun p => p.1.tx.hour) := List.mem_dedup.mp hh
    rcases List.mem_map.mp hmem with ⟨r, _, rfl⟩
    unfold Transaction.hour
    omega
  · unfold hourCounts
    rw [List.map_map]
    have hcomp : (Prod.snd ∘ fun h => (h, (rows.map (fun p => p.1.tx.hour)).count h)) =
        fun h => (rows.map (fun p => p.1.tx.hour)).count h := rfl
    rw [hcomp, sum_dedup_count, List.length_map]

/-- Witness for C6 at the concrete one-row filtered table. -/
theorem C6_hour_grouping_witness :
    (∀ p ∈ hourCounts rowsW, p.1 < 24) ∧
      ((hourCounts rowsW).map Prod.snd).sum = rowsW.length :=
  C6_hour_grouping rowsW

/-- C3: when the filtered merged table is empty the aggregation does not
raise (the embedded aggregation functions are total, matching numpy, whose
integer-scalar division by a zero row count warns and yields nan rather
than raising) and the aggregates are degenerate: zero counts, a nan fraud
percentage, and empty groupings; the report is still produced. -/
theorem C3_empty_table_degenerate (txs : List Transaction) (rates : List RateRow)
    (h : filteredTable txs rates = Except.ok []) :
    reportLines txs rates = Except.ok (mkReportLines (computeStats [])) ∧
      computeStats [] = Stats.mk 0 0 NpFloat.nan 0 0 ∧
      top_countries [] = [] ∧ hourCounts [] = [] := by
  refine ⟨?_, rfl, rfl, rfl⟩
  unfold reportLines
  rw [h]
  rfl

/-- Witness for C3: the pipeline on two empty input tables has an empty
filtered table. -/
theorem C3_empty_table_degenerate_witness :
    reportLines [] [] = Except.ok (mkReportLines (computeStats [])) ∧
      computeStats [] = Stats.mk 0 0 NpFloat.nan 0 0 ∧
      top_countries [] = [] ∧ hourCounts [] = [] :=
  C3_empty_table_degenerate [] [] rfl

/-- C8: for fixed inputs, two invocations of the pipeline produce
byte-identical report content; the run parameter models the invocation
context and the report text does not depend on it. -/
theorem C8_report_deterministic (i j : Nat) (txs : List Transaction)
    (rates : List RateRow) : reportText i txs rates = reportText j txs rates := rfl

/-- C10 counterexample: a transaction whose date matches no rate row
produces one null-extended merged row, not zero rows, so the merged row
count does not equal the number of rate rows sharing the date. -/
theorem C10_counterexample :
    (mergeTables [txMiss] []).length = 1 ∧
      (List.filter (fun r => r.date == txMiss.date) ([] : List RateRow)).length = 0 :=
  ⟨rfl, rfl⟩

/-- C10 amended: the join enforces no uniqueness on the rate table's date
column: each transaction produces max 1 k merged rows, where k is the
number of rate rows sharing its date (the left join emits one null-extended
row when k = 0), every produced row carrying that transaction; duplicate
dates therefore multiply the transaction in the merged table. -/
theorem C10_join_multiplicity (t : Transaction) (rates : List RateRow) :
    (mergeTx rates t).length =
      max 1 (rates.filter (fun r => r.date == t.date)).length ∧
      (mergeTx rates t).all (fun m => m.tx == t) = true := by
  unfold mergeTx
  cases hf : rates.filter (fun r => r.date == t.date) with
  | nil =>
    refine ⟨rfl, ?_⟩
    simp
  | cons r rs =>
    constructor
    · simp [List.length_map]
    · simp [List.all_map]

/-- Witness for C10 amended at a duplicate-date rate table. -/
theorem C10_join_multiplicity_witness :
    (mergeTx [rrEUR, rrEUR] txEUR).length =
      max 1 (List.filter (fun r => r.date == txEUR.date) [rrEUR, rrEUR]).length ∧
      (mergeTx [rrEUR, rrEUR] txEUR).all (fun m => m.tx == txEUR) = true :=
  C10_join_multiplicity txEUR [rrEUR, rrEUR]

/-- C9: the per-row rate lookup searches every column of the merged row,
not only rate columns: when the currency code names the amount column, the
amount itself is used as the rate, so every merged row of such a
transaction survives filtering with normalized amount amount / amount = 1,
whatever the rate table holds. -/
theorem C9_tx_column_used_as_rate (t : Transaction) (rates : List RateRow)
    (h1 : t.currency = "amount") (h2 : t.amount ≠ 0) :
    filteredTable [t] rates =
      Except.ok ((mergeTx rates t).map (fun m => (m, 1))) := by
  unfold filteredTable
  rw [mergeTables_singleton]
  have hconv : ∀ m ∈ mergeTx rates t, convert_to_usd m = Except.ok (some 1) := by
    intro m hm
    have htx : m.tx = t := (mergeTx_mem hm).1
    have hget : m.get m.tx.currency = Value.num t.amount := by
      rw [htx, h1]
      unfold MergedRow.get
      have : txGet m.tx "amount" = some (Value.num m.tx.amount) := by
        simp [txGet]
      rw [this, htx]
    unfold convert_to_usd
    rw [hget]
    simp [pdNotNull, valueNeZero, divByValue, h2, htx, div_self h2]
  rw [@applyConvert_of_forall (mergeTx rates t) (fun _ => some 1) hconv]
  simp only [Except.map]
  rw [dropnaUsd_map_some (mergeTx rates t) (fun _ => 1)]

/-- Witness for C9: the amount-named currency with a rate table quoting
only EUR; the row survives with normalized amount 1. -/
theorem C9_tx_column_used_as_rate_witness :
    filteredTable [txAmt] [rrEUR] =
      Except.ok ((mergeTx [rrEUR] txAmt).map (fun m => (m, 1))) :=
  C9_tx_column_used_as_rate txAmt [rrEUR] rfl (by norm_num [txAmt])

/-- C5: for every filtered table, the top-10 countries list has length at
most 10, its counts are non-increasing, every listed country occurs in the
table (with its exact count), and ties are ordered by the first occurrence
of the country in the table's row order. -/
theorem C5_top_countries_shape (rows : List (MergedRow × ℚ)) :
    (top_countries rows).length ≤ 10 ∧
      (top_countries rows).Pairwise (fun a b => b.2 ≤ a.2) ∧
      (∀ e ∈ top_countries rows,
        e.1 ∈ rows.map (fun p => p.1.tx.country) ∧
          e.2 = (rows.map (fun p => p.1.tx.country)).count e.1) ∧
      (top_countries rows).Pairwise (fun a b => a.2 = b.2 →
        (rows.map (fun p => p.1.tx.country)).indexOf a.1 ≤
          (rows.map (fun p => p.1.tx.country)).indexOf b.1) := by
  have hsorted : (value_counts (rows.map (fun p => p.1.tx.country))).Pairwise vcLE :=
    List.sorted_insertionSort vcLE _
  have hperm : List.Perm (value_counts (rows.map (fun p => p.1.tx.country)))
      ((rows.map (fun p => p.1.tx.country)).dedup.map
        (fun k => (k, (rows.map (fun p => p.1.tx.country)).count k,
          (rows.map (fun p => p.1.tx.country)).indexOf k))) :=
    List.perm_insertionSort vcLE _
  have hent : ∀ e ∈ value_counts (rows.map (fun p => p.1.tx.country)),
      e.1 ∈ rows.map (fun p => p.1.tx.country) ∧
        e.2.1 = (rows.map (fun p => p.1.tx.country)).count e.1 ∧
        e.2.2 = (rows.map (fun p => p.1.tx.country)).indexOf e.1 := by
    intro e he
    rcases List.mem_map.mp (hperm.mem_iff.mp he) with ⟨k, hk, rfl⟩
    exact ⟨List.mem_dedup.mp hk, rfl, rfl⟩
  have hsorted10 :
      ((value_counts (rows.map (fun p => p.1.tx.country))).take 10).Pairwise vcLE :=
    List.Pairwise.sublist (List.take_sublist 10 _) hsorted
  refine ⟨?_, ?_, ?_, ?_⟩
  · unfold top_countries
    rw [List.length_map]
    exact List.length_take_le 10 _
  · unfold top_countries
    rw [List.pairwise_map]
    refine hsorted10.imp ?_
    intro a b hab
    rcases hab with hlt | ⟨heq, _⟩
    · exact le_of_lt hlt
    · exact le_of_eq heq.symm
  · intro e he
    unfold top_countries at he
    rcases List.mem_map.mp he with ⟨e', he', rfl⟩
    rcases hent e' (List.take_subset 10 _ he') with ⟨h1, h2, _⟩
    exact ⟨h1, h2⟩
  · unfold top_countries
    rw [List.pairwise_map]
    refine List.Pairwise.imp_of_mem ?_ hsorted10
    intro a b ha hb hab hcount
    rcases hent a (List.take_subset 10 _ ha) with ⟨_, _, hia⟩
    rcases hent b (List.take_subset 10 _ hb) with ⟨_, _, hib⟩
    rw [← hia, ← hib]
    rcases hab with hlt | ⟨_, hidx⟩
    · omega
    · exact hidx

/-- Witness for C5 at the concrete one-row filtered table. -/
theorem C5_top_countries_shape_witness :
    (top_countries rowsW).length ≤ 10 ∧
      (top_countries rowsW).Pairwise (fun a b => b.2 ≤ a.2) ∧
      (∀ e ∈ top_countries rowsW,
        e.1 ∈ rowsW.map (fun p => p.1.tx.country) ∧
          e.2 = (rowsW.map (fun p => p.1.tx.country)).count e.1) ∧
      (top_countries rowsW).Pairwise (fun a b => a.2 = b.2 →
        (rowsW.map (fun p => p.1.tx.country)).indexOf a.1 ≤
          (rowsW.map (fun p => p.1.tx.country)).indexOf b.1) :=
  C5_top_countries_shape rowsW

/-- C7: the unique-customer and unique-vendor counts written to the report
equal the cardinality of the distinct customer_id values and distinct
vendor values of the filtered table. -/
theorem C7_unique_counts_reported (txs : List Transaction) (rates : List RateRow)
    (rows : List (MergedRow × ℚ)) (h : filteredTable txs rates = Except.ok rows) :
    ∃ ls, reportLines txs rates = Except.ok ls ∧
      ls[3]? = some ("Уникальных клиентов: " ++
        toString (rows.map (fun p => p.1.tx.customer_id)).toFinset.card) ∧
      ls[4]? = some ("Уникальных вендоров: " ++
        toString (rows.map (fun p => p.1.tx.vendor)).toFinset.card) := by
  refine ⟨mkReportLines (computeStats rows), ?_, ?_, ?_⟩
  · unfold reportLines
    rw [h]
    rfl
  · have hval : (mkReportLines (computeStats rows))[3]? =
        some ("Уникальных клиентов: " ++
          toString (rows.map (fun p => p.1.tx.customer_id)).dedup.length) := rfl
    rw [hval, List.card_toFinset]
  · have hval : (mkReportLines (computeStats rows))[4]? =
        some ("Уникальных вендоров: " ++
          toString (rows.map (fun p => p.1.tx.vendor)).dedup.length) := rfl
    rw [hval, List.card_toFinset]

/-- Witness for C7 at the one-row pipeline run. -/
theorem C7_unique_counts_reported_witness :
    ∃ ls, reportLines [txEUR] [rrEUR] = Except.ok ls ∧
      ls[3]? = some ("Уникальных клиентов: " ++
        toString (rowsW.map (fun p => p.1.tx.customer_id)).toFinset.card) ∧
      ls[4]? = some ("Уникальных вендоров: " ++
        toString (rowsW.map (fun p => p.1.tx.vendor)).toFinset.card) :=
  C7_unique_counts_reported [txEUR] [rrEUR] rowsW (by
    norm_num +decide [filteredTable, mergeTables, mergeTx, applyConvert, convert_to_usd,
      MergedRow.get, txGet, lookupRate, pdNotNull, valueNeZero, divByValue, dropnaUsd,
      Transaction.date, List.filter, List.lookup, Except.map, List.filterMap, Option.map,
      txEUR, rrEUR, mEUR, rowsW])

/-- C2 counterexample: a currency code with no matching rate column is not
always excluded: when it names a transaction-side column (amount), the
merged row survives filtering, with amount / amount = 1 as the normalized
amount, although the rate table has no amount column and the date match
exists. -/
theorem C2_counterexample :
    List.lookup "amount" rrEUR.rates = none ∧ rrEUR.date = txAmt.date ∧
      filteredTable [txAmt] [rrEUR] = Except.ok [(mAmt, 1)] := by
  refine ⟨rfl, rfl, ?_⟩
  norm_num +decide [filteredTable, mergeTables, mergeTx, applyConvert, convert_to_usd,
    MergedRow.get, txGet, lookupRate, pdNotNull, valueNeZero, divByValue, dropnaUsd,
    Transaction.date, List.filter, List.lookup, Except.map, List.filterMap, Option.map,
    txAmt, rrEUR, mAmt]

/-- C2 amended: for every transaction whose currency code does not name a
transaction-side column of the merged row, the three failure shapes (no
matching rate column, no rate row for the date, matched rate null or zero)
all yield the same outcome: the row is excluded by the filtering and no
error is raised (the conversion returns None). -/
theorem C2_failure_shapes_excluded (t : Transaction) (rates : List RateRow)
    (hcur : t.currency ∉ txColNames)
    (hshape : ∀ rr ∈ rates, rr.date = t.date →
      lookupRate rr t.currency = Value.null ∨ lookupRate rr t.currency = Value.num 0) :
    filteredTable [t] rates = Except.ok [] ∧
      ∀ m ∈ mergeTables [t] rates, convert_to_usd m = Except.ok none := by
  have hconv : ∀ m ∈ mergeTx rates t, convert_to_usd m = Except.ok none := by
    intro m hm
    rcases mergeTx_mem hm with ⟨htx, hrr⟩
    apply convert_to_usd_of_null_or_zero
    have hget : m.get m.tx.currency = rateOnlyLookup m :=
      get_of_not_txCol m (by rw [htx]; exact hcur)
    rw [hget]
    unfold rateOnlyLookup
    rcases hrr with hnone | ⟨rr, hsome, hmem, hdate⟩
    · rw [hnone]
      left
      rfl
    · rw [hsome, htx]
      exact hshape rr hmem hdate
  refine ⟨?_, ?_⟩
  · unfold filteredTable
    rw [mergeTables_singleton,
      @applyConvert_of_forall (mergeTx rates t) (fun _ => none) hconv]
    simp only [Except.map]
    rw [dropnaUsd_map_none]
  · intro m hm
    rw [mergeTables_singleton] at hm
    exact hconv m hm

/-- Witness for C2 amended: a JPY transaction whose quoted rate on its date
is zero is excluded without error. -/
theorem C2_failure_shapes_excluded_witness :
    filteredTable [txJPY] [rrJPY0] = Except.ok [] ∧
      ∀ m ∈ mergeTables [txJPY] [rrJPY0], convert_to_usd m = Except.ok none :=
  C2_failure_shapes_excluded txJPY [rrJPY0] (by decide) (by decide)

/-- C1 counterexample: the spec-side exchange rate matched on (date,
currency) is null for the amount-named currency (no such rate column), yet
the merged row survives filtering, contradicting the claim that no row with
a null matched rate survives and that the normalized amount is the raw
amount divided by that rate. -/
theorem C1_counterexample :
    rateOnlyLookup mAmt = Value.null ∧
      filteredTable [txAmt] [rrEUR] = Except.ok [(mAmt, 1)] := by
  refine ⟨rfl, ?_⟩
  norm_num +decide [filteredTable, mergeTables, mergeTx, applyConvert, convert_to_usd,
    MergedRow.get, txGet, lookupRate, pdNotNull, valueNeZero, divByValue, dropnaUsd,
    Transaction.date, List.filter, List.lookup, Except.map, List.filterMap, Option.map,
    txAmt, rrEUR, mAmt]

/-- C1 amended: every row surviving filtering divides the raw amount by the
non-null, non-zero value found by the currency-keyed lookup in its merged
row, and that value is the exchange rate matched on (date, currency)
whenever the currency code does not name a transaction-side column; no row
whose looked-up value is null or zero survives. -/
theorem C1_surviving_row_division (txs : List Transaction) (rates : List RateRow)
    (rows : List (MergedRow × ℚ)) (h : filteredTable txs rates = Except.ok rows) :
    ∀ p ∈ rows,
      p.1 ∈ mergeTables txs rates ∧
        pdNotNull (p.1.get p.1.tx.currency) = true ∧
        valueNeZero (p.1.get p.1.tx.currency) = true ∧
        divByValue p.1.tx.amount (p.1.get p.1.tx.currency) = some p.2 ∧
        (p.1.tx.currency ∉ txColNames → p.1.get p.1.tx.currency = rateOnlyLookup p.1) := by
  intro p hp
  rcases filteredTable_ok_mem h hp with ⟨hmem, hconv⟩
  rcases convert_to_usd_ok_some p.1 p.2 hconv with ⟨h1, h2, h3⟩
  exact ⟨hmem, h1, h2, h3, fun hc => get_of_not_txCol p.1 hc⟩

/-- Witness for C1 amended: the EUR row survives with 100 / (9/10) =
1000/9 dollars, and its matched value is the (date, currency) rate. -/
theorem C1_surviving_row_division_witness :
    mEUR ∈ mergeTables [txEUR] [rrEUR] ∧
      pdNotNull (mEUR.get mEUR.tx.currency) = true ∧
      valueNeZero (mEUR.get mEUR.tx.currency) = true ∧
      divByValue mEUR.tx.amount (mEUR.get mEUR.tx.currency) = some (1000 / 9) ∧
      (mEUR.tx.currency ∉ txColNames → mEUR.get mEUR.tx.currency = rateOnlyLookup mEUR) :=
  C1_surviving_row_division [txEUR] [rrEUR] [(mEUR, 1000 / 9)] (by
      norm_num +decide [filteredTable, mergeTables, mergeTx, applyConvert, convert_to_usd,
        MergedRow.get, txGet, lookupRate, pdNotNull, valueNeZero, divByValue, dropnaUsd,
        Transaction.date, List.filter, List.lookup, Except.map, List.filterMap, Option.map,
        txEUR, rrEUR, mEUR])
    (mEUR, 1000 / 9) (by simp)

/-- C4: for every non-empty filtered table, the fraud-percentage figure on
the report's third line is the fraud-flagged row count divided by the total
row count, times 100, rendered to two decimal places. -/
theorem C4_fraud_percent_reported (txs : List Transaction) (rates : List RateRow)
    (rows : List (MergedRow × ℚ)) (h : filteredTable txs rates = Except.ok rows)
    (hne : rows ≠ []) :
    ∃ ls, reportLines txs rates = Except.ok ls ∧
      ls[2]? = some ("Количество мошеннических: " ++ toString (fraudCount rows) ++
        " (" ++ decimal2String ((fraudCount rows : ℚ) / (rows.length : ℚ) * 100) ++
        "%)") := by
  refine ⟨mkReportLines (computeStats rows), ?_, ?_⟩
  · unfold reportLines
    rw [h]
    rfl
  · have hlen : rows.length ≠ 0 := fun h0 => hne (List.length_eq_zero.mp h0)
    have hper : (computeStats rows).fraud_percent =
        NpFloat.fin ((fraudCount rows : ℚ) / (rows.length : ℚ) * 100) := by
      have hproj : (computeStats rows).fraud_percent =
          (npDiv (fraudCount rows) rows.length).mulPos 100 := rfl
      rw [hproj]
      unfold npDiv
      rw [if_neg (by exact_mod_cast hlen)]
      unfold NpFloat.mulPos
      norm_num
    have hfc : (computeStats rows).fraud_count = fraudCount rows := rfl
    have hval : (mkReportLines (computeStats rows))[2]? =
        some ("Количество мошеннических: " ++ toString (computeStats rows).fraud_count ++
          " (" ++ formatFixed2 (computeStats rows).fraud_percent ++ "%)") := rfl
    rw [hval, hfc, hper]
    rfl

/-- Witness for C4: the one-row run reports 1 fraud out of 1 row. -/
theorem C4_fraud_percent_reported_witness :
    ∃ ls, reportLines [txEUR] [rrEUR] = Except.ok ls ∧
      ls[2]? = some ("Количество мошеннических: " ++ toString (fraudCount rowsW) ++
        " (" ++ decimal2String ((fraudCount rowsW : ℚ) / (rowsW.length : ℚ) * 100) ++
        "%)") :=
  C4_fraud_percent_reported [txEUR] [rrEUR] rowsW (by
      norm_num +decide [filteredTable, mergeTables, mergeTx, applyConvert, convert_to_usd,
        MergedRow.get, txGet, lookupRate, pdNotNull, valueNeZero, divByValue, dropnaUsd,
        Transaction.date, List.filter, List.lookup, Except.map, List.filterMap, Option.map,
        txEUR, rrEUR, mEUR, rowsW])
    (by simp [rowsW])

end EDA
